import Mathlib

/-
Verification of the Cryptdatum header codec.

The definitions below are a shallow embedding of the header codec found in
the repository: the recognizer HasHeader, the validator HasValidHeader and
the decoder DecodeHeader of the Go library, and the C decoder
decode_header (modelled as decode_header_c together with its stateful
reader cursor).  Byte sequences are lists of natural numbers; on-wire
bytes are values below 256.  Multi-byte fields are read little-endian,
mirroring binary.LittleEndian respectively le16toh/le32toh/le64toh.
-/

namespace Cryptdatum

/-- A byte sequence, as handed to the codec. -/
abbrev Bytes := List Nat

/-- HeaderSize constant of the source. -/
def HeaderSize : Nat := 80

/-- magicDate constant of the source: the earliest non-draft timestamp. -/
def magicDate : Nat := 1652155382000000001

def DatumInvalid : Nat := 1
def DatumDraft : Nat := 2
def DatumEmpty : Nat := 4
def DatumChecksum : Nat := 8
def DatumOPC : Nat := 16
def DatumCompressed : Nat := 32
def DatumEncrypted : Nat := 64
def DatumExtractable : Nat := 128
def DatumSigned : Nat := 256
def DatumStreamable : Nat := 512
def DatumCustom : Nat := 1024
def DatumCompromised : Nat := 2048

/-- The Magic tag of the source. -/
def Magic : Bytes := [0xA7, 0xF6, 0xE5, 0xD4, 0xC3, 0xB2, 0xA1, 0xE1]

/-- The Delimiter tag of the source. -/
def Delimiter : Bytes := [0xC8, 0xB7, 0xA6, 0xE5, 0xD4, 0xC3, 0xB2, 0xF1]

/-- The eight-zero-bytes sentinel used for unset 8-byte fields. -/
def empty8 : Bytes := [0, 0, 0, 0, 0, 0, 0, 0]

/-- Go slice expression data[i:j]. -/
def slice (data : Bytes) (i j : Nat) : Bytes := (data.drop i).take (j - i)

/-- Little-endian value of a byte list. -/
def leUint (bs : Bytes) : Nat := bs.foldr (fun b acc => b + 256 * acc) 0

/-- binary.LittleEndian.Uint16(data[i:i+2]). -/
def leUint16 (data : Bytes) (i : Nat) : Nat := leUint (slice data i (i + 2))

/-- binary.LittleEndian.Uint32(data[i:i+4]). -/
def leUint32 (data : Bytes) (i : Nat) : Nat := leUint (slice data i (i + 4))

/-- binary.LittleEndian.Uint64(data[i:i+8]). -/
def leUint64 (data : Bytes) (i : Nat) : Nat := leUint (slice data i (i + 8))

/-- HasHeader of the Go library: length, magic and delimiter check. -/
def HasHeader (data : Bytes) : Bool :=
  if data.length < HeaderSize then false
  else decide (Magic = slice data 0 8) && decide (Delimiter = slice data 72 80)

/-- HasValidHeader of the Go library (the C has_valid_header performs the
same checks at the same offsets). -/
def HasValidHeader (data : Bytes) : Bool :=
  if HasHeader data = false then false
  else if leUint16 data 8 < 1 then false
  else if leUint64 data 10 &&& DatumDraft ≠ 0 ∨ leUint64 data 10 &&& DatumCompromised ≠ 0 then
    true
  else if leUint64 data 18 < magicDate then false
  else if leUint64 data 10 &&& DatumOPC ≠ 0 ∧ leUint32 data 26 < 1 then false
  else if leUint64 data 10 &&& DatumChecksum ≠ 0 ∧ slice data 30 38 = empty8 then false
  else if leUint64 data 10 &&& DatumEmpty ≠ 0 ∧
      (leUint64 data 38 < 1 ∨
        (leUint64 data 10 &&& DatumCompressed ≠ 0 ∧ leUint16 data 46 < 1) ∨
        (leUint64 data 10 &&& DatumEncrypted ≠ 0 ∧ leUint16 data 48 < 1) ∨
        (leUint64 data 10 &&& DatumExtractable ≠ 0 ∧ slice data 50 58 = empty8)) then false
  else if leUint64 data 10 &&& DatumSigned ≠ 0 ∧ leUint16 data 58 < 1 then false
  else true

/-- The decoded header record of the Go library. -/
structure Header where
  magic : Bytes
  Version : Nat
  Flags : Nat
  Timestamp : Nat
  OPC : Nat
  Checksum : Nat
  Size : Nat
  CompressionAlg : Nat
  EncryptionAlg : Nat
  SignatureType : Nat
  SignatureSize : Nat
  FileExt : Bytes
  Custom : Bytes
  delimiter : Bytes
deriving DecidableEq, Repr

/-- The field parsing performed by DecodeHeader on the 80-byte window. -/
def parseHeader (headb : Bytes) : Header :=
  { magic := slice headb 0 8
    Version := leUint16 headb 8
    Flags := leUint64 headb 10
    Timestamp := leUint64 headb 18
    OPC := leUint32 headb 26
    Checksum := leUint64 headb 30
    Size := leUint64 headb 38
    CompressionAlg := leUint16 headb 46
    EncryptionAlg := leUint16 headb 48
    SignatureType := leUint16 headb 50
    SignatureSize := leUint32 headb 52
    FileExt := slice headb 56 64
    Custom := slice headb 64 72
    delimiter := slice headb 72 80 }

/-- The error taxonomy surfaced by the decoders. -/
inductive DecodeError where
  | ioError
  | unexpectedEOF
  | noHeader
  | invalidHeader
deriving DecidableEq, Repr

/-- Outcome of the single Read call issued by the Go DecodeHeader:
the bytes placed into the 80-byte buffer and whether the reader
returned an error. -/
structure ReadResult where
  bytes : Bytes
  err : Bool
deriving DecidableEq, Repr

/-- DecodeHeader of the Go library over the outcome of its single
Read call. -/
def DecodeHeader (r : ReadResult) : Except DecodeError Header :=
  if r.err = true then .error .ioError
  else if r.bytes.length < HeaderSize then .error .unexpectedEOF
  else if HasHeader r.bytes = false then .error .noHeader
  else .ok (parseHeader r.bytes)

/-- The C reader: read n bytes from the stream at the cursor. -/
def cdtRead (stream : Bytes) (pos n : Nat) : Bytes := (stream.drop pos).take n

/-- decode_header of the C library, with the reader modelled as a cursor
into a byte stream.  It performs a second 8-byte read directly into the
file_ext field of the output record, overwriting the bytes copied from
the 80-byte window and advancing the cursor.  Returns the record together
with the final cursor position. -/
def decode_header_c (stream : Bytes) (pos : Nat) : Except DecodeError (Header × Nat) :=
  let headb := cdtRead stream pos HeaderSize
  let pos1 := pos + headb.length
  if headb.length < HeaderSize then .error .ioError
  else if HasHeader headb = false then .error .noHeader
  else
    let ext2 := cdtRead stream pos1 8
    let pos2 := pos1 + ext2.length
    .ok ({ parseHeader headb with FileExt := ext2 ++ (slice headb 56 64).drop ext2.length },
      pos2)

/-- The timestamp 1652155382000000001 in little-endian byte order. -/
def tsBytes : Bytes := [1, 28, 220, 1, 145, 162, 237, 22]

/-- The scenario S6 80-byte buffer, exactly as written by the
test-data generator createTestHasValidHeader: version 1, flags 1532,
timestamp 1652155382000000001, opc 2, checksum bytes "checksum", size 3,
compression_alg 4, encryption_alg 5, signature_type 6 at offset 50,
signature_size 7 at offset 52, file_ext "affixing", custom "tailored". -/
def s6 : Bytes :=
  Magic ++ [1, 0] ++ [252, 5, 0, 0, 0, 0, 0, 0] ++ tsBytes ++ [2, 0, 0, 0] ++
    [99, 104, 101, 99, 107, 115, 117, 109] ++ [3, 0, 0, 0, 0, 0, 0, 0] ++ [4, 0] ++ [5, 0] ++
    [6, 0] ++ [7, 0, 0, 0] ++ [97, 102, 102, 105, 120, 105, 110, 103] ++
    [116, 97, 105, 108, 111, 114, 101, 100] ++ Delimiter

/-- The header record the decoder produces from the S6 buffer. -/
def s6header : Header :=
  { magic := Magic
    Version := 1
    Flags := 1532
    Timestamp := magicDate
    OPC := 2
    Checksum := leUint [99, 104, 101, 99, 107, 115, 117, 109]
    Size := 3
    CompressionAlg := 4
    EncryptionAlg := 5
    SignatureType := 6
    SignatureSize := 7
    FileExt := [97, 102, 102, 105, 120, 105, 110, 103]
    Custom := [116, 97, 105, 108, 111, 114, 101, 100]
    delimiter := Delimiter }

/-- The S6 buffer with the signature_type field (offset 50, two bytes)
zeroed; every other byte is unchanged. -/
def c1buf : Bytes := (s6.set 50 0).set 51 0

/-- The S6 buffer with the SIGNED flag cleared (flags 1276) and the
file_ext field (offsets 56..64) zeroed. -/
def c2buf : Bytes :=
  Magic ++ [1, 0] ++ [252, 4, 0, 0, 0, 0, 0, 0] ++ tsBytes ++ [2, 0, 0, 0] ++
    [99, 104, 101, 99, 107, 115, 117, 109] ++ [3, 0, 0, 0, 0, 0, 0, 0] ++ [4, 0] ++ [5, 0] ++
    [6, 0] ++ [7, 0, 0, 0] ++ empty8 ++ [116, 97, 105, 108, 111, 114, 101, 100] ++ Delimiter

/-- An EMPTY plus EXTRACTABLE header whose bytes at 50..58 are all zero
while its file_ext field (offsets 56..64) is not all zero. -/
def c2buf2 : Bytes :=
  Magic ++ [1, 0] ++ [132, 0, 0, 0, 0, 0, 0, 0] ++ tsBytes ++ [0, 0, 0, 0] ++
    empty8 ++ [3, 0, 0, 0, 0, 0, 0, 0] ++ [0, 0] ++ [0, 0] ++ [0, 0] ++ [0, 0, 0, 0] ++
    [0, 0, 102, 105, 120, 105, 110, 103] ++ empty8 ++ Delimiter

/-- The H0 buffer of scenario S5: magic, version 1, flags 0,
everything else zero, delimiter. -/
def s5buf : Bytes := Magic ++ [1, 0] ++ List.replicate 62 0 ++ Delimiter

/-- The H0 buffer of scenario S1: magic, version 1, flags DRAFT,
everything else zero, delimiter. -/
def h0draft : Bytes := Magic ++ [1, 0] ++ [2] ++ List.replicate 61 0 ++ Delimiter

/-- The draft buffer with the INVALID bit additionally set (flags 3). -/
def invalidDraftBuf : Bytes := Magic ++ [1, 0] ++ [3] ++ List.replicate 61 0 ++ Delimiter

/-- A non-EMPTY header with COMPRESSED set (flags 32), timestamp equal
to magicDate and compression_alg 0. -/
def c9buf : Bytes :=
  Magic ++ [1, 0] ++ [32] ++ List.replicate 7 0 ++ tsBytes ++ List.replicate 46 0 ++ Delimiter

/-- The c9buf buffer with the size field changed to 9 (offset 38). -/
def c9buf2 : Bytes :=
  Magic ++ [1, 0] ++ [32] ++ List.replicate 7 0 ++ tsBytes ++ List.replicate 12 0 ++ [9] ++
    List.replicate 33 0 ++ Delimiter

/-- The S6 buffer followed by eight payload bytes (ASCII "payload!"). -/
def c6stream : Bytes := s6 ++ [112, 97, 121, 108, 111, 97, 100, 33]

/-- The record the C decoder actually returns on c6stream: the file_ext
slot has been overwritten by the extra read with the payload bytes. -/
def c6returned : Header := { s6header with FileExt := [112, 97, 121, 108, 111, 97, 100, 33] }

theorem hasHeader_iff (data : Bytes) :
    HasHeader data = true ↔
      80 ≤ data.length ∧ Magic = slice data 0 8 ∧ Delimiter = slice data 72 80 := by
  unfold HasHeader HeaderSize
  by_cases h : data.length < 80
  · rw [if_pos h]
    simp only [Bool.false_eq_true, false_iff, not_and]
    intro h80
    omega
  · rw [if_neg h]
    simp only [Bool.and_eq_true, decide_eq_true_eq]
    constructor
    · rintro ⟨h1, h2⟩
      exact ⟨Nat.le_of_not_lt h, h1, h2⟩
    · rintro ⟨-, h1, h2⟩
      exact ⟨h1, h2⟩

theorem hasValidHeader_iff (data : Bytes) :
    HasValidHeader data = true ↔
      HasHeader data = true ∧ ¬ leUint16 data 8 < 1 ∧
        (leUint64 data 10 &&& DatumDraft ≠ 0 ∨ leUint64 data 10 &&& DatumCompromised ≠ 0 ∨
          (¬ leUint64 data 18 < magicDate ∧
            ¬(leUint64 data 10 &&& DatumOPC ≠ 0 ∧ leUint32 data 26 < 1) ∧
            ¬(leUint64 data 10 &&& DatumChecksum ≠ 0 ∧ slice data 30 38 = empty8) ∧
            ¬(leUint64 data 10 &&& DatumEmpty ≠ 0 ∧
              (leUint64 data 38 < 1 ∨
                (leUint64 data 10 &&& DatumCompressed ≠ 0 ∧ leUint16 data 46 < 1) ∨
                (leUint64 data 10 &&& DatumEncrypted ≠ 0 ∧ leUint16 data 48 < 1) ∨
                (leUint64 data 10 &&& DatumExtractable ≠ 0 ∧ slice data 50 58 = empty8))) ∧
            ¬(leUint64 data 10 &&& DatumSigned ≠ 0 ∧ leUint16 data 58 < 1))) := by
  unfold HasValidHeader
  split_ifs with h0 h2 h3 h4 h5 h6 h7 h8
  all_goals simp_all
  all_goals tauto

/-- Headers shorter than 80 bytes are rejected by the validator. -/
theorem hasValidHeader_short (data : Bytes) (h : data.length < 80) :
    HasValidHeader data = false := by
  have hH : HasHeader data = false := by
    unfold HasHeader HeaderSize
    rw [if_pos h]
  unfold HasValidHeader
  rw [if_pos hH]

theorem length_slice (b : Bytes) (i j : Nat) :
    (slice b i j).length = min (j - i) (b.length - i) := by
  simp [slice]

theorem getD_slice (b : Bytes) (i j k : Nat) (hk : k < j - i) :
    (slice b i j).getD k 0 = b.getD (i + k) 0 := by
  by_cases hL : i + k < b.length
  · have hlen : k < (slice b i j).length := by
      rw [length_slice]
      omega
    rw [List.getD_eq_getElem _ 0 hlen, List.getD_eq_getElem _ 0 hL]
    simp only [slice, List.getElem_take, List.getElem_drop]
  · have h1 : (slice b i j).length ≤ k := by
      rw [length_slice]
      omega
    rw [List.getD_eq_default _ 0 h1, List.getD_eq_default _ 0 (by omega)]

theorem slice_congr (b1 b2 : Bytes) (i j : Nat) (hlen : b1.length = b2.length)
    (h : ∀ k, i ≤ k → k < j → b1.getD k 0 = b2.getD k 0) :
    slice b1 i j = slice b2 i j := by
  apply List.ext_getElem
  · rw [length_slice, length_slice, hlen]
  · intro n h1 h2
    have h1l : n < (j - i) ⊓ (b1.length - i) := by rw [← length_slice]; exact h1
    have hn : n < j - i := by omega
    rw [← List.getD_eq_getElem _ 0 h1, ← List.getD_eq_getElem _ 0 h2,
      getD_slice _ _ _ _ hn, getD_slice _ _ _ _ hn]
    exact h (i + n) (by omega) (by omega)

theorem slice_cons (b : Bytes) (i j : Nat) (hi : i < b.length) (hij : i < j) :
    slice b i j = b.getD i 0 :: slice b (i + 1) j := by
  unfold slice
  rw [List.drop_eq_getElem_cons hi]
  have hj : j - i = (j - (i + 1)) + 1 := by omega
  rw [hj, List.take_succ_cons, List.getD_eq_getElem _ 0 hi]

theorem leUint_cons (x : Nat) (xs : Bytes) : leUint (x :: xs) = x + 256 * leUint xs := rfl

theorem bool_eq_iff (a b : Bool) : a = b ↔ ((a = true) ↔ (b = true)) := by
  cases a <;> cases b <;> simp

theorem and_even_congr (f g m : Nat) (hm : m % 2 = 0) (h : f / 2 = g / 2) :
    f &&& m = g &&& m := by
  apply Nat.eq_of_testBit_eq
  intro i
  rw [Nat.testBit_and, Nat.testBit_and]
  cases i with
  | zero =>
    have hz : m.testBit 0 = false := by simp [Nat.testBit_zero, hm]
    rw [hz, Bool.and_false, Bool.and_false]
  | succ j =>
    have hs : f.testBit (j + 1) = g.testBit (j + 1) := by
      rw [← Nat.testBit_div_two, ← Nat.testBit_div_two, h]
    rw [hs]

theorem slice_getD_both {b1 b2 : Bytes} {i j k : Nat} (h : slice b1 i j = slice b2 i j)
    (hk : k < j - i) : b1.getD (i + k) 0 = b2.getD (i + k) 0 := by
  rw [← getD_slice _ _ _ _ hk, ← getD_slice _ _ _ _ hk, h]

/-- Claim C1: the claim states that a recognized, version-valid,
non-draft, non-compromised, timestamp-valid window with the SIGNED flag
set and signature_type (little-endian 16-bit value at offset 50) equal
to 0 is rejected by the validator.  The code instead reads the 16-bit
value at offset 58 (inside the file_ext field) for the SIGNED check, so
the buffer c1buf -- the S6 test buffer with signature_type zeroed --
satisfies every hypothesis yet still validates. -/
theorem c1_signed_check_ignores_signature_type :
    HasHeader c1buf = true ∧ 1 ≤ leUint16 c1buf 8 ∧
      leUint64 c1buf 10 &&& DatumDraft = 0 ∧ leUint64 c1buf 10 &&& DatumCompromised = 0 ∧
      magicDate ≤ leUint64 c1buf 18 ∧ leUint64 c1buf 10 &&& DatumSigned ≠ 0 ∧
      leUint16 c1buf 50 = 0 ∧ HasValidHeader c1buf = true := by
  decide

/-- Claim C2: the claim states that a recognized, version-valid,
non-draft, non-compromised, timestamp-valid window with the EMPTY and
EXTRACTABLE flags set is rejected when its file_ext field (offsets
56..64) is all zero, and that the EXTRACTABLE clause succeeds whenever
those bytes are not all zero.  The code instead compares the bytes at
offsets 50..58 against the zero sentinel: c2buf has file_ext all zero
yet validates, and c2buf2 has file_ext not all zero yet is rejected. -/
theorem c2_extractable_check_ignores_file_ext :
    (HasHeader c2buf = true ∧ 1 ≤ leUint16 c2buf 8 ∧
      leUint64 c2buf 10 &&& DatumDraft = 0 ∧ leUint64 c2buf 10 &&& DatumCompromised = 0 ∧
      magicDate ≤ leUint64 c2buf 18 ∧ leUint64 c2buf 10 &&& DatumEmpty ≠ 0 ∧
      leUint64 c2buf 10 &&& DatumExtractable ≠ 0 ∧
      slice c2buf 56 64 = empty8 ∧ HasValidHeader c2buf = true) ∧
    (HasHeader c2buf2 = true ∧ 1 ≤ leUint16 c2buf2 8 ∧
      leUint64 c2buf2 10 &&& DatumDraft = 0 ∧ leUint64 c2buf2 10 &&& DatumCompromised = 0 ∧
      magicDate ≤ leUint64 c2buf2 18 ∧ leUint64 c2buf2 10 &&& DatumEmpty ≠ 0 ∧
      leUint64 c2buf2 10 &&& DatumExtractable ≠ 0 ∧
      slice c2buf2 56 64 ≠ empty8 ∧ HasValidHeader c2buf2 = false) := by
  decide

/-- Claim C7: on the scenario S6 buffer the validator succeeds and the
decoder returns exactly the field values the generator wrote: version 1,
flags 1532, timestamp 1652155382000000001, opc 2, checksum equal to the
little-endian reading of the ASCII bytes of "checksum", size 3,
compression_alg 4, encryption_alg 5, signature_type 6, signature_size 7,
file_ext "affixing" and custom "tailored". -/
theorem c7_scenario_s6 :
    HasValidHeader s6 = true ∧
      DecodeHeader { bytes := s6, err := false } = .ok s6header :=
  ⟨by decide, rfl⟩

/-- Claim C6: the claim states that a successful decode consumes exactly
80 bytes and takes file_ext from bytes 56..64 of that window.  The C
decoder instead issues a second 8-byte read into the file_ext slot: on
the stream c6stream (the S6 buffer followed by the payload bytes
"payload!") it succeeds with the cursor at 88, returning file_ext equal
to the payload bytes rather than bytes 56..64 of the window. -/
theorem c6_decode_header_c_extra_read :
    decode_header_c c6stream 0 = .ok (c6returned, 88) ∧
      c6returned.FileExt ≠ slice c6stream 56 64 ∧
      slice c6stream 56 64 = [97, 102, 102, 105, 120, 105, 110, 103] ∧ (88 : Nat) ≠ 80 :=
  ⟨rfl, by decide, by decide, by decide⟩

/-- Claim C3: for every byte sequence of length at least 80 with correct
magic and delimiter and a version field of at least 1, if the flags
field has the DRAFT bit or the COMPROMISED bit set, the validator
returns true, whatever the remaining fields hold. -/
theorem c3_draft_compromised_short_circuit (b : Bytes) (hlen : 80 ≤ b.length)
    (hm : Magic = slice b 0 8) (hd : Delimiter = slice b 72 80)
    (hv : 1 ≤ leUint16 b 8)
    (hf : leUint64 b 10 &&& DatumDraft ≠ 0 ∨ leUint64 b 10 &&& DatumCompromised ≠ 0) :
    HasValidHeader b = true := by
  rw [hasValidHeader_iff]
  refine ⟨(hasHeader_iff b).mpr ⟨hlen, hm, hd⟩, by omega, ?_⟩
  tauto

theorem c3_witness : HasValidHeader h0draft = true :=
  c3_draft_compromised_short_circuit h0draft (by decide) (by decide) (by decide) (by decide)
    (Or.inl (by decide))

/-- Claim C4: the recognizer returns true exactly when the input is at
least 80 bytes long with the magic tag at the front and the delimiter at
offsets 72..80; every shorter input is rejected by recognizer and
validator alike; and changing any single byte of the magic region or of
the delimiter region of a recognized header to a different value defeats
recognition. -/
theorem c4_recognizer_characterization :
    (∀ data : Bytes, HasHeader data = true ↔
      80 ≤ data.length ∧ Magic = slice data 0 8 ∧ Delimiter = slice data 72 80) ∧
    (∀ data : Bytes, data.length < 80 →
      HasHeader data = false ∧ HasValidHeader data = false) ∧
    (∀ data : Bytes, ∀ i c : Nat, i < 8 → HasHeader data = true →
      c ≠ data.getD i 0 → HasHeader (data.set i c) = false) ∧
    (∀ data : Bytes, ∀ i c : Nat, i < 8 → HasHeader data = true →
      c ≠ data.getD (72 + i) 0 → HasHeader (data.set (72 + i) c) = false) := by
  refine ⟨hasHeader_iff, ?_, ?_, ?_⟩
  · intro data h
    have hH : HasHeader data = false := by
      unfold HasHeader HeaderSize
      rw [if_pos h]
    exact ⟨hH, hasValidHeader_short data h⟩
  · intro data i c hi hH hc
    cases hset : HasHeader (data.set i c) with
    | false => rfl
    | true =>
      obtain ⟨hlen, hm, -⟩ := (hasHeader_iff data).mp hH
      obtain ⟨-, hm2, -⟩ := (hasHeader_iff _).mp hset
      have e : slice (data.set i c) 0 8 = slice data 0 8 := hm2.symm.trans hm
      have h1 := slice_getD_both e (show i < 8 - 0 by omega)
      simp only [Nat.zero_add] at h1
      have hilen : i < (data.set i c).length := by
        rw [List.length_set]
        omega
      rw [List.getD_eq_getElem _ 0 hilen, List.getElem_set_self] at h1
      exact (hc h1).elim
  · intro data i c hi hH hc
    cases hset : HasHeader (data.set (72 + i) c) with
    | false => rfl
    | true =>
      obtain ⟨hlen, -, hm⟩ := (hasHeader_iff data).mp hH
      obtain ⟨-, -, hm2⟩ := (hasHeader_iff _).mp hset
      have e : slice (data.set (72 + i) c) 72 80 = slice data 72 80 := hm2.symm.trans hm
      have h1 := slice_getD_both e (show i < 80 - 72 by omega)
      have hilen : 72 + i < (data.set (72 + i) c).length := by
        rw [List.length_set]
        omega
      rw [List.getD_eq_getElem _ 0 hilen, List.getElem_set_self] at h1
      exact (hc h1).elim

theorem c4_witness :
    (HasHeader ([] : Bytes) = false ∧ HasValidHeader ([] : Bytes) = false) ∧
      HasHeader (h0draft.set 0 0) = false ∧ HasHeader (h0draft.set (72 + 7) 0) = false :=
  ⟨c4_recognizer_characterization.2.1 [] (by decide),
    c4_recognizer_characterization.2.2.1 h0draft 0 0 (by decide) (by decide) (by decide),
    c4_recognizer_characterization.2.2.2 h0draft 7 0 (by decide) (by decide) (by decide)⟩

/-- Claim C5: the Go decoder fails with the IO respectively EOF error
exactly when the reader reported a failure or delivered fewer than 80
bytes, fails with noHeader exactly when the delivered window is not
recognized, never produces invalidHeader, and otherwise returns the
parsed record without consulting the validator: it succeeds even on
recognized windows the validator rejects. -/
theorem c5_decode_header_error_taxonomy (r : ReadResult) :
    ((DecodeHeader r = .error .ioError ∨ DecodeHeader r = .error .unexpectedEOF) ↔
      (r.err = true ∨ r.bytes.length < HeaderSize)) ∧
    (DecodeHeader r = .error .noHeader ↔
      (r.err = false ∧ HeaderSize ≤ r.bytes.length ∧ HasHeader r.bytes = false)) ∧
    DecodeHeader r ≠ .error .invalidHeader ∧
    (r.err = false → HeaderSize ≤ r.bytes.length → HasHeader r.bytes = true →
      DecodeHeader r = .ok (parseHeader r.bytes)) ∧
    (r.err = false → HeaderSize ≤ r.bytes.length → HasHeader r.bytes = true →
      HasValidHeader r.bytes = false → DecodeHeader r = .ok (parseHeader r.bytes)) := by
  unfold DecodeHeader
  simp only [HeaderSize]
  by_cases he : r.err = true
  · rw [if_pos he]
    simp [he]
  · rw [if_neg he]
    have he' : r.err = false := by revert he; cases r.err <;> simp
    by_cases hlen : r.bytes.length < 80
    · rw [if_pos hlen]
      have hnle : ¬ 80 ≤ r.bytes.length := by omega
      simp [he', hlen, hnle]
    · rw [if_neg hlen]
      have hle : 80 ≤ r.bytes.length := by omega
      cases hH : HasHeader r.bytes
      · simp [he', hlen, hle]
      · simp [he', hlen]

theorem c5_witness :
    DecodeHeader { bytes := s5buf, err := false } = .ok (parseHeader s5buf) :=
  (c5_decode_header_error_taxonomy { bytes := s5buf, err := false }).2.2.2.2 rfl (by decide)
    (by decide) (by decide)

/-- Claim C8: a recognized window with version at least 1 and both the
DRAFT and COMPROMISED bits clear is rejected whenever its timestamp is
below magicDate; conversely every window that validates with those bits
clear has timestamp at least magicDate; and the all-zero-flags H0 buffer
is rejected. -/
theorem c8_timestamp_required :
    (∀ b : Bytes, HasHeader b = true → 1 ≤ leUint16 b 8 →
      leUint64 b 10 &&& DatumDraft = 0 → leUint64 b 10 &&& DatumCompromised = 0 →
      leUint64 b 18 < magicDate → HasValidHeader b = false) ∧
    (∀ b : Bytes, HasValidHeader b = true →
      leUint64 b 10 &&& DatumDraft = 0 → leUint64 b 10 &&& DatumCompromised = 0 →
      magicDate ≤ leUint64 b 18) ∧
    HasValidHeader s5buf = false := by
  refine ⟨?_, ?_, by decide⟩
  · intro b hH hv hdr hcmp hts
    cases hvh : HasValidHeader b with
    | false => rfl
    | true =>
      obtain ⟨-, -, h3⟩ := (hasValidHeader_iff b).mp hvh
      rcases h3 with h | h | h
      · exact (h hdr).elim
      · exact (h hcmp).elim
      · exact (h.1 hts).elim
  · intro b hvh hdr hcmp
    obtain ⟨-, -, h3⟩ := (hasValidHeader_iff b).mp hvh
    rcases h3 with h | h | h
    · exact (h hdr).elim
    · exact (h hcmp).elim
    · exact Nat.not_lt.mp h.1

theorem c8_witness : HasValidHeader s5buf = false :=
  c8_timestamp_required.1 s5buf (by decide) (by decide) (by decide) (by decide) (by decide)

/-- Claim C9: with the EMPTY flag clear the validator never reads the
size, compression_alg or encryption_alg fields: two recognized,
version-valid, non-draft, non-compromised, timestamp-valid windows of
equal length that agree at every offset below 80 outside 38..50 validate
identically; and the concrete non-EMPTY buffer with COMPRESSED set and
compression_alg 0 still validates. -/
theorem c9_empty_gate_frame :
    (∀ b1 b2 : Bytes, b1.length = b2.length →
      (∀ k, k < 80 → k < 38 ∨ 50 ≤ k → b1.getD k 0 = b2.getD k 0) →
      HasHeader b1 = true → 1 ≤ leUint16 b1 8 →
      leUint64 b1 10 &&& DatumDraft = 0 → leUint64 b1 10 &&& DatumCompromised = 0 →
      magicDate ≤ leUint64 b1 18 → leUint64 b1 10 &&& DatumEmpty = 0 →
      HasValidHeader b1 = HasValidHeader b2) ∧
    (HasValidHeader c9buf = true ∧ leUint64 c9buf 10 &&& DatumCompressed ≠ 0 ∧
      leUint64 c9buf 10 &&& DatumEmpty = 0 ∧ leUint16 c9buf 46 = 0) := by
  refine ⟨?_, by decide⟩
  intro b1 b2 hlen hag hH hv hdr hcmp hts hemp
  have e08 : slice b2 0 8 = slice b1 0 8 :=
    slice_congr b2 b1 0 8 hlen.symm (fun k h1 h2 => (hag k (by omega) (by omega)).symm)
  have e7280 : slice b2 72 80 = slice b1 72 80 :=
    slice_congr b2 b1 72 80 hlen.symm (fun k h1 h2 => (hag k (by omega) (by omega)).symm)
  have hHe : HasHeader b2 = HasHeader b1 := by
    rw [bool_eq_iff, hasHeader_iff, hasHeader_iff, ← hlen, e08, e7280]
  have q8 : leUint16 b2 8 = leUint16 b1 8 := by
    unfold leUint16
    rw [slice_congr b2 b1 8 (8 + 2) hlen.symm (fun k h1 h2 => (hag k (by omega) (by omega)).symm)]
  have q10 : leUint64 b2 10 = leUint64 b1 10 := by
    unfold leUint64
    rw [slice_congr b2 b1 10 (10 + 8) hlen.symm
      (fun k h1 h2 => (hag k (by omega) (by omega)).symm)]
  have q18 : leUint64 b2 18 = leUint64 b1 18 := by
    unfold leUint64
    rw [slice_congr b2 b1 18 (18 + 8) hlen.symm
      (fun k h1 h2 => (hag k (by omega) (by omega)).symm)]
  have q26 : leUint32 b2 26 = leUint32 b1 26 := by
    unfold leUint32
    rw [slice_congr b2 b1 26 (26 + 4) hlen.symm
      (fun k h1 h2 => (hag k (by omega) (by omega)).symm)]
  have q3038 : slice b2 30 38 = slice b1 30 38 :=
    slice_congr b2 b1 30 38 hlen.symm (fun k h1 h2 => (hag k (by omega) (by omega)).symm)
  have q5058 : slice b2 50 58 = slice b1 50 58 :=
    slice_congr b2 b1 50 58 hlen.symm (fun k h1 h2 => (hag k (by omega) (by omega)).symm)
  have q58 : leUint16 b2 58 = leUint16 b1 58 := by
    unfold leUint16
    rw [slice_congr b2 b1 58 (58 + 2) hlen.symm
      (fun k h1 h2 => (hag k (by omega) (by omega)).symm)]
  rw [bool_eq_iff, hasValidHeader_iff b1, hasValidHeader_iff b2, hHe, q8, q10, q18, q26,
    q3038, q5058, q58]
  simp only [hemp]
  simp

theorem c9_witness : HasValidHeader c9buf = HasValidHeader c9buf2 :=
  c9_empty_gate_frame.1 c9buf c9buf2 (by decide) (by decide) (by decide) (by decide)
    (by decide) (by decide) (by decide) (by decide)

/-- Claim C10: the validator never inspects the INVALID bit: two byte
windows of equal length whose bytes at offset 10 are below 256, agreeing
at every offset below 80 except possibly in bit 0 of the flags byte at
offset 10, validate identically; moreover the draft buffer with the
INVALID bit set still validates. -/
theorem c10_invalid_bit_ignored :
    (∀ b1 b2 : Bytes, b1.length = b2.length →
      (∀ k, k < 80 → k ≠ 10 → b1.getD k 0 = b2.getD k 0) →
      b1.getD 10 0 < 256 → b2.getD 10 0 < 256 →
      b1.getD 10 0 / 2 = b2.getD 10 0 / 2 →
      HasValidHeader b1 = HasValidHeader b2) ∧
    (HasValidHeader invalidDraftBuf = true ∧
      leUint64 invalidDraftBuf 10 &&& DatumInvalid ≠ 0) := by
  refine ⟨?_, by decide⟩
  intro b1 b2 hlen hag hb1 hb2 hbit
  by_cases hshort : b1.length < 80
  · rw [hasValidHeader_short b1 hshort, hasValidHeader_short b2 (by omega)]
  have h10 : 10 < b1.length := by omega
  have h10b : 10 < b2.length := by omega
  have tail : slice b2 (10 + 1) (10 + 8) = slice b1 (10 + 1) (10 + 8) :=
    slice_congr b2 b1 (10 + 1) (10 + 8) hlen.symm
      (fun k h1 h2 => (hag k (by omega) (by omega)).symm)
  have hdiv : leUint64 b2 10 / 2 = leUint64 b1 10 / 2 := by
    unfold leUint64
    rw [slice_cons b1 10 (10 + 8) h10 (by omega), slice_cons b2 10 (10 + 8) h10b (by omega),
      leUint_cons, leUint_cons, tail]
    omega
  have hmask : ∀ m : Nat, m % 2 = 0 → leUint64 b2 10 &&& m = leUint64 b1 10 &&& m :=
    fun m hm => and_even_congr _ _ m hm hdiv
  have mdr := hmask DatumDraft (by decide)
  have mcm := hmask DatumCompromised (by decide)
  have mop := hmask DatumOPC (by decide)
  have mck := hmask DatumChecksum (by decide)
  have mem := hmask DatumEmpty (by decide)
  have mcp := hmask DatumCompressed (by decide)
  have men := hmask DatumEncrypted (by decide)
  have mex := hmask DatumExtractable (by decide)
  have msg := hmask DatumSigned (by decide)
  have e08 : slice b2 0 8 = slice b1 0 8 :=
    slice_congr b2 b1 0 8 hlen.symm (fun k h1 h2 => (hag k (by omega) (by omega)).symm)
  have e7280 : slice b2 72 80 = slice b1 72 80 :=
    slice_congr b2 b1 72 80 hlen.symm (fun k h1 h2 => (hag k (by omega) (by omega)).symm)
  have hHe : HasHeader b2 = HasHeader b1 := by
    rw [bool_eq_iff, hasHeader_iff, hasHeader_iff, ← hlen, e08, e7280]
  have q8 : leUint16 b2 8 = leUint16 b1 8 := by
    unfold leUint16
    rw [slice_congr b2 b1 8 (8 + 2) hlen.symm (fun k h1 h2 => (hag k (by omega) (by omega)).symm)]
  have q18 : leUint64 b2 18 = leUint64 b1 18 := by
    unfold leUint64
    rw [slice_congr b2 b1 18 (18 + 8) hlen.symm
      (fun k h1 h2 => (hag k (by omega) (by omega)).symm)]
  have q26 : leUint32 b2 26 = leUint32 b1 26 := by
    unfold leUint32
    rw [slice_congr b2 b1 26 (26 + 4) hlen.symm
      (fun k h1 h2 => (hag k (by omega) (by omega)).symm)]
  have q3038 : slice b2 30 38 = slice b1 30 38 :=
    slice_congr b2 b1 30 38 hlen.symm (fun k h1 h2 => (hag k (by omega) (by omega)).symm)
  have q38 : leUint64 b2 38 = leUint64 b1 38 := by
    unfold leUint64
    rw [slice_congr b2 b1 38 (38 + 8) hlen.symm
      (fun k h1 h2 => (hag k (by omega) (by omega)).symm)]
  have q46 : leUint16 b2 46 = leUint16 b1 46 := by
    unfold leUint16
    rw [slice_congr b2 b1 46 (46 + 2) hlen.symm
      (fun k h1 h2 => (hag k (by omega) (by omega)).symm)]
  have q48 : leUint16 b2 48 = leUint16 b1 48 := by
    unfold leUint16
    rw [slice_congr b2 b1 48 (48 + 2) hlen.symm
      (fun k h1 h2 => (hag k (by omega) (by omega)).symm)]
  have q5058 : slice b2 50 58 = slice b1 50 58 :=
    slice_congr b2 b1 50 58 hlen.symm (fun k h1 h2 => (hag k (by omega) (by omega)).symm)
  have q58 : leUint16 b2 58 = leUint16 b1 58 := by
    unfold leUint16
    rw [slice_congr b2 b1 58 (58 + 2) hlen.symm
      (fun k h1 h2 => (hag k (by omega) (by omega)).symm)]
  rw [bool_eq_iff, hasValidHeader_iff b1, hasValidHeader_iff b2, hHe, q8, mdr, mcm, q18,
    mop, q26, mck, q3038, mem, q38, mcp, q46, men, q48, mex, q5058, msg, q58]

theorem c10_witness : HasValidHeader h0draft = HasValidHeader invalidDraftBuf :=
  c10_invalid_bit_ignored.1 h0draft invalidDraftBuf (by decide) (by decide) (by decide)
    (by decide) (by decide)

end Cryptdatum
